import Mathlib

/-!
Verification of the webcamoid media-pipeline plugins: the faac AAC encoder
element, the WebM muxer element, the rav1e AV1 encoder caps negotiation and
the PipeWire audio-device backend, shallowly embedded from the C++ sources.
-/

set_option maxRecDepth 10000

namespace Spec2Proof


/-- The three element lifecycle states of AkElement. -/
inductive ElementState
  | null
  | paused
  | playing
deriving DecidableEq

namespace Faac

/-- AkAudioCaps sample formats (the subset the faac element distinguishes;
fmtNone stands for AkAudioCaps::SampleFormat_none, other stands for any
format outside the faac table such as u8/flt/dbl). -/
inductive SampleFormat
  | s16
  | s32
  | u8
  | flt
  | dbl
  | fmtNone
deriving DecidableEq

/-- FaacSampleFormatTable::table without its terminator entry; the second
component is the native faac input-format enum value (FAAC_INPUT_16BIT = 1,
FAAC_INPUT_32BIT = 2). -/
def faacSampleFormatTable : List (SampleFormat × Int) :=
  [(SampleFormat.s16, 1), (SampleFormat.s32, 2)]

/-- FaacSampleFormatTable::byFormat: scan until the terminator; a miss
returns the terminator entry (SampleFormat_none, FAAC_INPUT_NULL = 0). -/
def byFormat (fmt : SampleFormat) : SampleFormat × Int :=
  match faacSampleFormatTable.find? (fun e => e.fst == fmt) with
  | some e => e
  | none => (SampleFormat.fmtNone, 0)

/-- Two-complement wrap of a mathematical integer into a 32-bit signed int,
the effect of C++ int arithmetic overflow as compilers implement it. -/
def int32wrap (x : Int) : Int :=
  (x + 2147483648) % 4294967296 - 2147483648

/-- qAbs on a C++ int: negation of the argument itself wraps at 32 bits
(qAbs(INT_MIN) yields INT_MIN again). -/
def qAbsInt32 (x : Int) : Int :=
  if x < 0 then int32wrap (-x) else x

/-- Conversion of a signed value to quint64 (reduction mod 2^64). -/
def toUInt64Int (x : Int) : Int :=
  x % 18446744073709551616

/-- The distance quantity `quint64 k = qAbs(*srate - rate)` computed inside
AudioEncoderFaacElementPrivate::nearestSampleRate, with the int arithmetic
wrapped at 32 bits exactly as the machine does. -/
def distU (rate s : Int) : Int :=
  toUInt64Int (qAbsInt32 (int32wrap (s - rate)))

/-- faacEncSupportedSampleRates without its 0 terminator. -/
def faacEncSupportedSampleRates : List Int :=
  [8000, 11025, 12000, 16000, 22050, 24000, 32000, 44100,
   48000, 64000, 88200, 96000]

/-- The scan loop of nearestSampleRate: carries the best rate found so far
and its distance q, replacing them only on a strictly smaller distance. -/
def nearestLoop (rate : Int) : List Int → Int → Int → Int
  | [], nearest, _ => nearest
  | s :: rest, nearest, q =>
    let k := distU rate s
    if k < q then nearestLoop rate rest s k else nearestLoop rate rest nearest q

/-- AudioEncoderFaacElementPrivate::nearestSampleRate: nearest starts at the
input rate, q at std::numeric_limits<quint64>::max(). -/
def nearestSampleRate (rate : Int) : Int :=
  nearestLoop rate faacEncSupportedSampleRates rate 18446744073709551615

/-- faacEncSampleRateIndex without its 0 terminator. -/
def faacEncSampleRateIndex : List Int :=
  [96000, 88200, 64000, 48000, 44100, 32000, 24000, 22050,
   16000, 12000, 11025, 8000, 7350]

/-- The scan loop of sampleRateIndex; 15 when the rate is absent. -/
def sriLoop (rate : Int) : List Int → Nat → Nat
  | [], _ => 15
  | s :: rest, i => if s = rate then i else sriLoop rate rest (i + 1)

/-- AudioEncoderFaacElementPrivate::sampleRateIndex. -/
def sampleRateIndex (rate : Int) : Nat :=
  sriLoop rate faacEncSampleRateIndex 0

/-- AudioEncoderFaacElementPrivate::putBits: the QBitArray grows by `bits`
entries holding `value` MSB-first (the loop writes bit i of the value at
position size-1-i). -/
def putBits (ba : List Bool) (bits : Nat) (value : Nat) : List Bool :=
  ba ++ (List.range bits).map (fun j => Nat.testBit value (bits - 1 - j))

/-- AudioEncoderFaacElementPrivate::bitsToByteArray: bit i lands in byte i/8
at position 7 - i%8; bytes beyond the bit count keep their zero padding. -/
def bitsToByteArray (bits : List Bool) : List Nat :=
  (List.range ((bits.length + 7) / 8)).map (fun b =>
    (List.range 8).foldl
      (fun acc j => acc + (if bits.getD (8 * b + j) false then 2 ^ (7 - j) else 0))
      0)

/-- QBitArray::resize(n): truncate to n bits, or pad with false bits. -/
def resizeBits (bits : List Bool) (n : Nat) : List Bool :=
  bits.take n ++ List.replicate (n - bits.length) false

/-- The faac AAC object type the element always configures
(m_config->aacObjectType = LOW; LOW = 2 in the faac enumeration). -/
def aacObjectTypeLOW : Nat := 2

/-- The bit sequence assembled by
AudioEncoderFaacElementPrivate::updateHeaders before the final resize:
object type, sample-rate index (24-bit escape when the index is 15),
channel count, GASpecificConfig flags and the SBR-disable tail. -/
def audioSpecificConfigBits (objectType : Nat) (rate channels : Int) : List Bool :=
  let ba := putBits [] 5 objectType
  let sri := sampleRateIndex rate
  let ba := putBits ba 4 sri
  let ba := if 15 ≤ sri then putBits ba 24 (rate % 4294967296).toNat else ba
  let ba := putBits ba 4 (channels % 4294967296).toNat
  let ba := putBits ba 1 0
  let ba := putBits ba 1 0
  let ba := putBits ba 1 0
  let ba := putBits ba 11 0x2b7
  let ba := putBits ba 5 5
  let ba := putBits ba 1 0
  ba

/-- The 32-byte header blob produced by updateHeaders for the given output
rate and channel count (the QBitArray is resized to 32*8 bits and packed). -/
def updateHeadersBlob (rate channels : Int) : List Nat :=
  bitsToByteArray (resizeBits (audioSpecificConfigBits aacObjectTypeLOW rate channels) (32 * 8))

/-- MSB-first bit expansion of a byte blob, for decoding header fields. -/
def blobBits (bytes : List Nat) : List Bool :=
  (bytes.map (fun byte => (List.range 8).map (fun j => Nat.testBit byte (7 - j)))).flatten

/-- Big-endian interpretation of a bit list as a natural number. -/
def bitsToNat (bits : List Bool) : Nat :=
  bits.foldl (fun acc b => 2 * acc + (if b then 1 else 0)) 0

/-- Outcomes of the native calls and properties AudioEncoderFaacElementPrivate::init
consults: validity of the element input caps, success of faacEncOpen, the
libfaac version check, faacEncSetConfiguration, and the output caps (rate
and channels) the encoder was negotiated to. -/
structure Env where
  inputCapsValid : Bool
  encOpenOk : Bool
  cfgVersionOk : Bool
  setConfigOk : Bool
  outRate : Int
  outChannels : Int

/-- The mutable private fields of AudioEncoderFaacElement the lifecycle
functions touch: m_initialized, m_paused, the native encoder handle
(as a presence flag), the FillAudioGaps helper handle and its running flag,
m_pts, m_encodedTimePts and m_headers. -/
structure Priv where
  inited : Bool
  paused : Bool
  encoderOpen : Bool
  hasFillGaps : Bool
  fillGapsPlaying : Bool
  pts : Int
  encodedTimePts : Int
  headers : List Nat
deriving DecidableEq

/-- AudioEncoderFaacElementPrivate::uninit: a guarded teardown that returns
immediately when the element was never initialized. -/
def uninit (p : Priv) : Priv :=
  if !p.inited then p
  else
    let p := { p with inited := false }
    let p := if p.hasFillGaps then { p with fillGapsPlaying := false } else p
    let p := if p.encoderOpen then { p with encoderOpen := false } else p
    { p with paused := false }

/-- AudioEncoderFaacElementPrivate::init: teardown, validation of the input
caps, opening and configuring the native encoder, header derivation and
counter reset; returns the success flag with the updated fields. -/
def init (env : Env) (p : Priv) : Bool × Priv :=
  let p := uninit p
  if !env.inputCapsValid then (false, p)
  else if !env.encOpenOk then (false, p)
  else
    let p := { p with encoderOpen := true }
    if !env.cfgVersionOk then (false, { p with encoderOpen := false })
    else if !env.setConfigOk then (false, { p with encoderOpen := false })
    else
      let p := { p with headers := updateHeadersBlob env.outRate env.outChannels }
      let p := if p.hasFillGaps then { p with fillGapsPlaying := true } else p
      (true, { p with pts := 0, encodedTimePts := 0, inited := true })

/-- The faac element as the host sees it: the AkElement lifecycle state plus
the private fields. -/
structure Elem where
  st : ElementState
  priv : Priv
deriving DecidableEq

/-- AudioEncoderFaacElement::setState: the nested switch over current and
target state; the Null→Paused case sets m_paused before falling through to
the shared initialization path, failed initialization clears m_paused, and
any transition not matched by the switch falls out to `return false`. -/
def setState (env : Env) (e : Elem) (target : ElementState) : Bool × Elem :=
  match e.st, target with
  | ElementState.null, ElementState.null => (false, e)
  | ElementState.null, t =>
    let p0 := if t = ElementState.paused then { e.priv with paused := true } else e.priv
    match init env p0 with
    | (false, p1) => (false, { e with priv := { p1 with paused := false } })
    | (true, p1) => (true, { st := t, priv := p1 })
  | ElementState.paused, ElementState.null =>
    (true, { st := ElementState.null, priv := uninit e.priv })
  | ElementState.paused, ElementState.playing =>
    (true, { st := ElementState.playing, priv := { e.priv with paused := false } })
  | ElementState.paused, ElementState.paused => (false, e)
  | ElementState.playing, ElementState.null =>
    (true, { st := ElementState.null, priv := uninit e.priv })
  | ElementState.playing, ElementState.paused =>
    (true, { st := ElementState.paused, priv := { e.priv with paused := true } })
  | ElementState.playing, ElementState.playing => (false, e)

end Faac

namespace Webm

/-- AkCompressedVideoCaps codec ids relevant to the WebM muxer: the three
supported codecs, a representative unsupported one (h264) and the unknown
sentinel. -/
inductive VideoCodecID
  | vp8
  | vp9
  | av1
  | h264
  | vcUnknown
deriving DecidableEq

/-- AkCompressedAudioCaps codec ids: the two supported codecs, a
representative unsupported one (mp3) and the unknown sentinel. -/
inductive AudioCodecID
  | vorbis
  | opus
  | mp3
  | acUnknown
deriving DecidableEq

/-- VideoCodecsTable::table without its terminator: codec id with the
libwebm codec-id string. -/
def webmVideoCodecsTable : List (VideoCodecID × String) :=
  [(VideoCodecID.vp8, "V_VP8"), (VideoCodecID.vp9, "V_VP9"),
   (VideoCodecID.av1, "V_AV1")]

/-- AudioCodecsTable::table without its terminator. -/
def webmAudioCodecsTable : List (AudioCodecID × String) :=
  [(AudioCodecID.vorbis, "A_VORBIS"), (AudioCodecID.opus, "A_OPUS")]

/-- VideoCodecsTable::byCodecID: none models reaching the terminator entry,
whose codecID tests false in `if (!vcodec->codecID)`. -/
def videoCodecEntry (c : VideoCodecID) : Option String :=
  (webmVideoCodecsTable.find? (fun e => e.fst == c)).map Prod.snd

/-- AudioCodecsTable::byCodecID, as videoCodecEntry. -/
def audioCodecEntry (c : AudioCodecID) : Option String :=
  (webmAudioCodecsTable.find? (fun e => e.fst == c)).map Prod.snd

/-- Valid compressed video caps as the muxer reads them (a falsy caps value
is represented as none at the use sites). -/
structure VideoCaps where
  codec : VideoCodecID
  width : Int
  height : Int
  fps : ℚ

/-- Valid compressed audio caps as the muxer reads them. -/
structure AudioCaps where
  codec : AudioCodecID
  rate : Int
  channels : Int
  bps : Int

/-- Native/filesystem operations the muxer performs, recorded in program
order; opening the writer is what creates the output file. -/
inductive WAction
  | openWriter (loc : String)
  | closeWriter
  | removeFile (loc : String)
  | renameFile (src dst : String)
  | segmentInit
  | addVideoTrack (w h : Int)
  | addAudioTrack (rate channels : Int)
  | setVideoCodecPrivate (hdr : List Nat)
  | setAudioCodecPrivate (hdr : List Nat)
  | addFrame (size : Nat) (track : Int) (tsNanos : Nat) (isKey : Bool)
  | setDuration (v : Int)
  | finalizeSegment
  | readerOpen (loc : String)
deriving DecidableEq

/-- Everything outside the muxer's own fields that its lifecycle reads: the
stream caps and headers the host configured, the output location, the
outcomes of the native calls, and the base-class per-stream duration
counters consulted at finalization. -/
structure Env where
  videoCaps : Option VideoCaps
  audioCaps : Option AudioCaps
  location : String
  hasPacketSync : Bool
  openOk : Bool
  segInitOk : Bool
  addVideoTrackOk : Bool
  getVideoTrackOk : Bool
  addAudioTrackOk : Bool
  getAudioTrackOk : Bool
  videoHeaders : List Nat
  audioHeaders : List Nat
  audioStreamDuration : Int
  videoStreamDuration : Int
  readerOpenOk : Bool
  tempDirOk : Bool
  tmpPath : String
  tmpWriterOpenOk : Bool
  copyCuesOk : Bool

/-- The mutable private fields of VideoMuxerWebmElement the lifecycle
functions touch. -/
structure Priv where
  inited : Bool
  paused : Bool
  audioTrackIndex : Int
  videoTrackIndex : Int
  audioDuration : ℚ
  videoDuration : ℚ
  timeCodeScale : Int
  cuesBeforeClusters : Bool
deriving DecidableEq

/-- The freshly constructed private state (member initializers). -/
def freshPriv : Priv :=
  { inited := false, paused := false, audioTrackIndex := 0,
    videoTrackIndex := 0, audioDuration := 0, videoDuration := 0,
    timeCodeScale := 100000, cuesBeforeClusters := false }

/-- qRound64 on a nonnegative-or-negative real: round half away from zero. -/
def qRound64 (x : ℚ) : Int :=
  if 0 ≤ x then ⌊x + 1 / 2⌋ else ⌈x - 1 / 2⌉

/-- The C++ cast uint64_t(x) of a nonnegative floating timestamp truncates
to the integer part (negative inputs are undefined behaviour in the source;
the model clamps them to zero). -/
def ratToUInt64 (x : ℚ) : Nat :=
  (⌊x⌋).toNat

/-- The final audio duration VideoMuxerWebmElementPrivate::uninit computes:
the base-class audio stream duration divided by the audio rate when that
counter is positive, otherwise the running m_audioDuration. -/
def audioDurationFinal (env : Env) (p : Priv) : ℚ :=
  if 0 < env.audioStreamDuration then
    (env.audioStreamDuration : ℚ) / ((match env.audioCaps with
      | some ac => ac.rate
      | none => 0 : Int) : ℚ)
  else p.audioDuration

/-- The final video duration uninit computes, from the base-class counter
and the stream frame rate when positive, otherwise m_videoDuration. -/
def videoDurationFinal (env : Env) (p : Priv) : ℚ :=
  if 0 < env.videoStreamDuration then
    (env.videoStreamDuration : ℚ) / (match env.videoCaps with
      | some vc => vc.fps
      | none => 0)
  else p.videoDuration

/-- The duration uninit writes into the segment: the video duration alone
when no audio track was added (index < 1), otherwise the maximum of both
stream durations. -/
def finalDuration (env : Env) (p : Priv) : ℚ :=
  if p.audioTrackIndex < 1 then videoDurationFinal env p
  else max (audioDurationFinal env p) (videoDurationFinal env p)

/-- VideoMuxerWebmElementPrivate::uninit: guarded by m_initialized; writes
the segment duration, finalizes, closes the writer, and optionally rewrites
the file with cues before clusters (early returns in that branch skip the
m_paused reset, as in the source). -/
def uninit (env : Env) (p : Priv) : Priv × List WAction :=
  if !p.inited then (p, [])
  else
    let p := { p with inited := false }
    let acts := [WAction.setDuration
                   (qRound64 (finalDuration env p * 1000000000 / (p.timeCodeScale : ℚ))),
                 WAction.finalizeSegment, WAction.closeWriter]
    if p.cuesBeforeClusters then
      if !env.readerOpenOk then (p, acts ++ [WAction.readerOpen env.location])
      else if !env.tempDirOk then (p, acts ++ [WAction.readerOpen env.location])
      else
        let acts := acts ++ [WAction.readerOpen env.location,
                             WAction.removeFile env.tmpPath,
                             WAction.openWriter env.tmpPath]
        if env.tmpWriterOpenOk then
          if env.copyCuesOk then
            ({ p with paused := false },
             acts ++ [WAction.closeWriter, WAction.removeFile env.location,
                      WAction.renameFile env.tmpPath env.location])
          else
            ({ p with paused := false },
             acts ++ [WAction.closeWriter, WAction.removeFile env.tmpPath])
        else
          ({ p with paused := false },
           acts ++ [WAction.closeWriter, WAction.removeFile env.tmpPath])
    else
      ({ p with paused := false }, acts)

/-- VideoMuxerWebmElementPrivate::init: teardown, packet-sync check, counter
reset, caps and codec validation, then file open, segment setup, track
creation and codec-private header attachment, failing with writer close and
file removal after the file exists. -/
def init (env : Env) (p : Priv) : Bool × Priv × List WAction :=
  let (p, acts0) := uninit env p
  if !env.hasPacketSync then (false, p, acts0)
  else
    let p := { p with audioDuration := 0, videoDuration := 0,
                      audioTrackIndex := 0, videoTrackIndex := 0 }
    match env.videoCaps with
    | none => (false, p, acts0)
    | some vc =>
      match videoCodecEntry vc.codec with
      | none => (false, p, acts0)
      | some _ =>
        let audioEntry : Option (Option AudioCaps) :=
          match env.audioCaps with
          | none => some none
          | some ac =>
            match audioCodecEntry ac.codec with
            | none => none
            | some _ => some (some ac)
        match audioEntry with
        | none => (false, p, acts0)
        | some audioInfo =>
          if !env.openOk then (false, p, acts0 ++ [WAction.openWriter env.location])
          else
            let acts := acts0 ++ [WAction.openWriter env.location]
            if !env.segInitOk then
              (false, p, acts ++ [WAction.segmentInit, WAction.closeWriter,
                                  WAction.removeFile env.location])
            else
              let acts := acts ++ [WAction.segmentInit]
              let acts := acts ++ [WAction.addVideoTrack vc.width vc.height]
              if !env.addVideoTrackOk then
                (false, p, acts ++ [WAction.closeWriter, WAction.removeFile env.location])
              else
                let p := { p with videoTrackIndex := 1 }
                if !env.getVideoTrackOk then
                  (false, p, acts ++ [WAction.closeWriter, WAction.removeFile env.location])
                else
                  match audioInfo with
                  | none =>
                    let acts := acts ++
                      (if env.videoHeaders.isEmpty then []
                       else [WAction.setVideoCodecPrivate env.videoHeaders])
                    (true, { p with inited := true }, acts)
                  | some ac =>
                    let acts := acts ++ [WAction.addAudioTrack ac.rate ac.channels]
                    if !env.addAudioTrackOk then
                      (false, p, acts ++ [WAction.closeWriter,
                                          WAction.removeFile env.location])
                    else
                      let p := { p with audioTrackIndex := 2 }
                      if !env.getAudioTrackOk then
                        (false, p, acts ++ [WAction.closeWriter,
                                            WAction.removeFile env.location])
                      else
                        let acts := acts ++
                          (if env.videoHeaders.isEmpty then []
                           else [WAction.setVideoCodecPrivate env.videoHeaders])
                        let acts := acts ++
                          (if env.audioHeaders.isEmpty then []
                           else [WAction.setAudioCodecPrivate env.audioHeaders])
                        (true, { p with inited := true }, acts)

/-- AkPacket type tags. -/
inductive PacketType
  | audio
  | video
  | audioCompressed
  | videoCompressed
  | unknownPkt
deriving DecidableEq

/-- The packet attributes VideoMuxerWebmElementPrivate::packetReady reads:
type, data size, pts, duration (in time-base ticks), the time base in
seconds per tick, and the compressed-video key-frame flag. -/
structure MPacket where
  ptype : PacketType
  dataSize : Nat
  pts : Int
  durationTicks : Int
  timeBase : ℚ
  keyFlag : Bool
deriving DecidableEq

/-- The absolute timestamp packetReady hands to Segment::AddFrame:
uint64_t(pts * timeBase.value() * 1e9). -/
def frameTimestampNanos (pkt : MPacket) : Nat :=
  ratToUInt64 ((pkt.pts : ℚ) * pkt.timeBase * 1000000000)

/-- VideoMuxerWebmElementPrivate::packetReady: track and key-flag selection,
the AddFrame call, and the running per-stream duration update. -/
def packetReady (p : Priv) (pkt : MPacket) : Priv × List WAction :=
  let isAudio := pkt.ptype == PacketType.audio
                 || pkt.ptype == PacketType.audioCompressed
  let track := if isAudio then p.audioTrackIndex else p.videoTrackIndex
  let isKey := if pkt.ptype == PacketType.videoCompressed then pkt.keyFlag else true
  let acts := [WAction.addFrame pkt.dataSize track (frameTimestampNanos pkt) isKey]
  let streamDuration := ((pkt.pts + pkt.durationTicks : Int) : ℚ) * pkt.timeBase
  if isAudio then ({ p with audioDuration := streamDuration }, acts)
  else ({ p with videoDuration := streamDuration }, acts)

/-- The muxer element: the AkElement lifecycle state plus private fields. -/
structure Elem where
  st : ElementState
  priv : Priv
deriving DecidableEq

/-- VideoMuxerWebmElement::setState, structurally identical to the encoder's
switch: Null→Paused sets m_paused then falls through to the initialization
path, and unmatched transitions fall out to `return false`. -/
def setState (env : Env) (e : Elem) (target : ElementState) :
    Bool × Elem × List WAction :=
  match e.st, target with
  | ElementState.null, ElementState.null => (false, e, [])
  | ElementState.null, t =>
    let p0 := if t = ElementState.paused then { e.priv with paused := true } else e.priv
    match init env p0 with
    | (false, p1, acts) => (false, { e with priv := { p1 with paused := false } }, acts)
    | (true, p1, acts) => (true, { st := t, priv := p1 }, acts)
  | ElementState.paused, ElementState.null =>
    let (p1, acts) := uninit env e.priv
    (true, { st := ElementState.null, priv := p1 }, acts)
  | ElementState.paused, ElementState.playing =>
    (true, { st := ElementState.playing, priv := { e.priv with paused := false } }, [])
  | ElementState.paused, ElementState.paused => (false, e, [])
  | ElementState.playing, ElementState.null =>
    let (p1, acts) := uninit env e.priv
    (true, { st := ElementState.null, priv := p1 }, acts)
  | ElementState.playing, ElementState.paused =>
    (true, { st := ElementState.paused, priv := { e.priv with paused := true } }, [])
  | ElementState.playing, ElementState.playing => (false, e, [])

/-- The private state after initializing from the fresh element and feeding
a sequence of synchronized packets (the packetReady deliveries of one
session), without the final teardown. -/
def sessionPriv (env : Env) (pkts : List MPacket) : Priv :=
  let r := init env freshPriv
  if r.fst then
    pkts.foldl (fun p pkt => (packetReady p pkt).fst) r.snd.fst
  else r.snd.fst

/-- The full action trace of one muxer session: initialization from the
fresh element, the packetReady deliveries when initialization succeeded,
then teardown. -/
def sessionActions (env : Env) (pkts : List MPacket) : List WAction :=
  let r := init env freshPriv
  if r.fst then
    let acts := pkts.foldl
      (fun (st : Priv × List WAction) pkt =>
        let r2 := packetReady st.fst pkt
        (r2.fst, st.snd ++ r2.snd))
      (r.snd.fst, r.snd.snd)
    acts.snd ++ (uninit env acts.fst).snd
  else r.snd.snd

end Webm

namespace Pw

/-- The native PipeWire stream resources AudioDevPipeWire::uninit releases,
as presence flags, plus the staging audio buffer. All handles are nullptr
and the buffer empty on a freshly constructed (never-initialized) element. -/
structure DevState where
  streamLoop : Bool
  stream : Bool
  streamContext : Bool
  buffers : List Nat
deriving DecidableEq

/-- Native PipeWire calls uninit may perform. -/
inductive PwAction
  | loopStop
  | streamDisconnect
  | streamDestroy
  | contextDestroy
  | loopDestroy
deriving DecidableEq

/-- AudioDevPipeWire::uninit: every native release is guarded by a null
check and nulls the handle afterwards; the buffer is cleared and the
function always returns true. -/
def uninit (s : DevState) : Bool × DevState × List PwAction :=
  let a1 := if s.streamLoop then [PwAction.loopStop] else []
  let r2 := if s.stream
    then ({ s with stream := false },
          [PwAction.streamDisconnect, PwAction.streamDestroy])
    else (s, ([] : List PwAction))
  let r3 := if r2.fst.streamContext
    then ({ r2.fst with streamContext := false }, [PwAction.contextDestroy])
    else (r2.fst, ([] : List PwAction))
  let r4 := if r3.fst.streamLoop
    then ({ r3.fst with streamLoop := false }, [PwAction.loopDestroy])
    else (r3.fst, ([] : List PwAction))
  (true, { r4.fst with buffers := [] }, a1 ++ r2.snd ++ r3.snd ++ r4.snd)

/-- The never-initialized device state (member initializers). -/
def freshDev : DevState :=
  { streamLoop := false, stream := false, streamContext := false, buffers := [] }

/-- The device registry fields defaultInput/defaultOutput read: the default
source/sink names and the id-ordered maps of sources and sinks (QMap
iterates in ascending key order, so the value lists are in map order). -/
structure Registry where
  defaultSource : String
  defaultSink : String
  sources : List (Nat × String)
  sinks : List (Nat × String)

/-- AudioDevPipeWire::defaultInput: the stored default source, or the first
enumerated source (QList::value(0), a null string when the list is empty). -/
def defaultInput (r : Registry) : String :=
  let ds := r.defaultSource
  if ds = "" then (r.sources.map Prod.snd).getD 0 "" else ds

/-- AudioDevPipeWire::defaultOutput, symmetric over the sinks map. -/
def defaultOutput (r : Registry) : String :=
  let ds := r.defaultSink
  if ds = "" then (r.sinks.map Prod.snd).getD 0 "" else ds

end Pw

namespace Faac

/-- The raw audio caps fields updateOutputCaps reads from the input caps. -/
structure RawCaps where
  format : SampleFormat
  channels : Int
  rate : Int
deriving DecidableEq

/-- The negotiated compressed output caps (codec is always AAC): the raw
format, channel count and rate wrapped by AkCompressedAudioCaps. -/
structure CompCaps where
  format : SampleFormat
  channels : Int
  rate : Int
deriving DecidableEq

/-- qBound(lo, v, hi) = qMax(lo, qMin(hi, v)). -/
def qBound (lo v hi : Int) : Int :=
  max lo (min hi v)

/-- AudioEncoderFaacElementPrivate::updateOutputCaps: empty input caps or
an unknown codec id clear the output caps (none); otherwise the input
format falls back to s16 when absent from the faac table, channels are
clamped to [1,2] and the rate is mapped by nearestSampleRate. codecKnown
models codecID(codec) != AudioCodecID_unknown. (The truthiness of the
built caps value lives in AkCompressedAudioCaps, outside this corpus; per
the spec a caps value is valid iff all required fields are
non-default/non-unknown, which the some/none split models.) -/
def updateOutputCaps (codecKnown : Bool) (inputCaps : Option RawCaps) :
    Option CompCaps :=
  match inputCaps with
  | none => none
  | some c =>
    if !codecKnown then none
    else
      let eq0 := byFormat c.format
      let eqF := if eq0.fst = SampleFormat.fmtNone then byFormat SampleFormat.s16
                 else eq0
      some { format := eqF.fst,
             channels := qBound 1 c.channels 2,
             rate := nearestSampleRate c.rate }

/-- One encodeFrame call as the pts accounting sees it: the frame's sample
count and the byte count faacEncEncode returned (packets are emitted only
for positive return values; negative values are logged errors). -/
structure EncFrame where
  samples : Nat
  writtenBytes : Int
deriving DecidableEq

/-- The packet stream produced by successive encodeFrame calls: sendFrame
stamps the current m_pts and duration = samples on each emitted packet and
then advances m_pts by samples; frames with no output leave m_pts alone.
Each emitted packet is recorded as (pts, duration). -/
def emitLoop : List EncFrame → Int → List (Int × Nat)
  | [], _ => []
  | f :: rest, pts =>
    if 0 < f.writtenBytes then (pts, f.samples) :: emitLoop rest (pts + f.samples)
    else emitLoop rest pts

/-- The emitted packets of a session, with m_pts starting at 0 (init). -/
def emittedPackets (frames : List EncFrame) : List (Int × Nat) :=
  emitLoop frames 0


end Faac

namespace Rav1e

/-- AkVideoCaps pixel formats: the rav1e table entries plus a
representative unsupported format (rgb24) and the none sentinel. -/
inductive PixelFormat
  | y8
  | y10
  | y12
  | yuv420p
  | yuv420p10
  | yuv420p12
  | yuv422p
  | yuv422p10
  | yuv422p12
  | yuv444p
  | yuv444p10
  | yuv444p12
  | rgb24
  | pfNone
deriving DecidableEq

/-- The rav1e chroma sampling enumeration. -/
inductive ChromaSampling
  | cs400
  | cs420
  | cs422
  | cs444
deriving DecidableEq

/-- Av1PixFormatTable::table without its terminator: pixel format, chroma
sampling and bit depth. -/
def rav1ePixFormatTable : List (PixelFormat × ChromaSampling × Nat) :=
  [(PixelFormat.y8, ChromaSampling.cs400, 8),
   (PixelFormat.y10, ChromaSampling.cs400, 10),
   (PixelFormat.y12, ChromaSampling.cs400, 12),
   (PixelFormat.yuv420p, ChromaSampling.cs420, 8),
   (PixelFormat.yuv420p10, ChromaSampling.cs420, 10),
   (PixelFormat.yuv420p12, ChromaSampling.cs420, 12),
   (PixelFormat.yuv422p, ChromaSampling.cs422, 8),
   (PixelFormat.yuv422p10, ChromaSampling.cs422, 10),
   (PixelFormat.yuv422p12, ChromaSampling.cs422, 12),
   (PixelFormat.yuv444p, ChromaSampling.cs444, 8),
   (PixelFormat.yuv444p10, ChromaSampling.cs444, 10),
   (PixelFormat.yuv444p12, ChromaSampling.cs444, 12)]

/-- Av1PixFormatTable::byPixFormat: scan until the terminator; a miss
returns the terminator entry (Format_none). -/
def byPixFormat (f : PixelFormat) : PixelFormat × ChromaSampling × Nat :=
  match rav1ePixFormatTable.find? (fun e => e.fst == f) with
  | some e => e
  | none => (PixelFormat.pfNone, ChromaSampling.cs400, 0)

/-- The raw video caps fields updateOutputCaps reads. -/
structure RawCaps where
  format : PixelFormat
  width : Int
  height : Int
  fps : ℚ
deriving DecidableEq

/-- The negotiated compressed output caps (codec is always AV1). -/
structure CompCaps where
  format : PixelFormat
  width : Int
  height : Int
  fps : ℚ
  bitrate : Int
deriving DecidableEq

/-- VideoEncoderRav1eElementPrivate::updateOutputCaps: empty input caps or
an unknown codec id clear the output caps; otherwise the pixel format falls
back to yuv420p when absent from the rav1e table and a zero frame rate
falls back to 30/1. The AkVideoConverter is modelled from the spec: its
outputCaps echo the caps set on it (the raw-format converter adapts frames
to the requested output caps; its class body is not part of this corpus). -/
def updateOutputCaps (codecKnown : Bool) (bitrate : Int)
    (inputCaps : Option RawCaps) : Option CompCaps :=
  match inputCaps with
  | none => none
  | some c =>
    if !codecKnown then none
    else
      let eq0 := byPixFormat c.format
      let eqF := if eq0.fst = PixelFormat.pfNone then byPixFormat PixelFormat.yuv420p
                 else eq0
      let fps := if c.fps = 0 then (30 : ℚ) else c.fps
      some { format := eqF.fst, width := c.width, height := c.height,
             fps := fps, bitrate := bitrate }

end Rav1e

/-- Demo environment for the faac element with every native call succeeding. -/
def faacEnvDemo : Faac.Env :=
  { inputCapsValid := true, encOpenOk := true, cfgVersionOk := true,
    setConfigOk := true, outRate := 44100, outChannels := 2 }

/-- A freshly constructed faac element in the Null state. -/
def faacElemNull : Faac.Elem :=
  { st := ElementState.null,
    priv := { inited := false, paused := false, encoderOpen := false,
              hasFillGaps := true, fillGapsPlaying := false, pts := 0,
              encodedTimePts := 0, headers := [] } }

/-- Demo environment for the WebM muxer: valid vp9 video caps, no audio,
every native call succeeding. -/
def webmEnvDemo : Webm.Env :=
  { videoCaps := some { codec := Webm.VideoCodecID.vp9, width := 640,
                        height := 480, fps := 30 },
    audioCaps := none, location := "video.webm", hasPacketSync := true,
    openOk := true, segInitOk := true, addVideoTrackOk := true,
    getVideoTrackOk := true, addAudioTrackOk := true, getAudioTrackOk := true,
    videoHeaders := [], audioHeaders := [], audioStreamDuration := 0,
    videoStreamDuration := 0, readerOpenOk := true, tempDirOk := true,
    tmpPath := "video_tmp.webm", tmpWriterOpenOk := true, copyCuesOk := true }

/-- A freshly constructed WebM muxer element in the Null state. -/
def webmElemNull : Webm.Elem :=
  { st := ElementState.null, priv := Webm.freshPriv }

/-- A PipeWire device state holding every native resource. -/
def pwDevDemo : Pw.DevState :=
  { streamLoop := true, stream := true, streamContext := true, buffers := [7] }

/-- A device registry with no default source set, two sources and one sink. -/
def pwRegistryDemo : Pw.Registry :=
  { defaultSource := "", defaultSink := "speakers",
    sources := [(3, "mic"), (5, "line-in")], sinks := [(2, "speakers")] }


/-- The demo muxer environment with an h264 video stream, a codec the WebM
muxer does not support. -/
def webmEnvBadCodec : Webm.Env :=
  { webmEnvDemo with
    videoCaps := some { codec := Webm.VideoCodecID.h264, width := 640,
                        height := 480, fps := 30 } }

/-- A muxer private state mid-session with both tracks added. -/
def webmPrivDemo : Webm.Priv :=
  { Webm.freshPriv with inited := true, audioTrackIndex := 2, videoTrackIndex := 1 }

/-- A compressed audio packet of 1024 samples at 44100 Hz starting at pts
1024. -/
def pktDemo : Webm.MPacket :=
  { ptype := Webm.PacketType.audioCompressed, dataSize := 100, pts := 1024,
    durationTicks := 1024, timeBase := 1 / 44100, keyFlag := false }


/-- Scanner for AddAudioTrack calls in a muxer action trace. -/
def hasAddAudio (acts : List Webm.WAction) : Bool :=
  acts.any (fun a => match a with
    | Webm.WAction.addAudioTrack _ _ => true
    | _ => false)


/-- A compressed key video frame at pts 0 with a 1/30 time base. -/
def pktVideoDemo : Webm.MPacket :=
  { ptype := Webm.PacketType.videoCompressed, dataSize := 2000, pts := 0,
    durationTicks := 1, timeBase := 1 / 30, keyFlag := true }

/-- Raw audio caps with a float format, 5 channels and an unsupported rate. -/
def faacRawCapsDemo : Faac.RawCaps :=
  { format := Faac.SampleFormat.flt, channels := 5, rate := 50000 }

/-- Raw video caps with a packed RGB format and an unknown frame rate. -/
def rav1eRawCapsDemo : Rav1e.RawCaps :=
  { format := Rav1e.PixelFormat.rgb24, width := 640, height := 480, fps := 0 }

/-- Two 1024-sample frames that both produced encoder output. -/
def demoFrames : List Faac.EncFrame :=
  [{ samples := 1024, writtenBytes := 50 }, { samples := 1024, writtenBytes := 60 }]

/-- An audio packet one tick after pktDemo in the same time base. -/
def pktDemo2 : Webm.MPacket :=
  { ptype := Webm.PacketType.audioCompressed, dataSize := 90, pts := 2048,
    durationTicks := 1024, timeBase := 1 / 44100, keyFlag := false }

namespace Faac

/-- Every distance nearestSampleRate computes is strictly below the initial
quint64 maximum, so the first table entry always replaces the seed. -/
lemma distU_lt_qmax (rate s : Int) : distU rate s < 18446744073709551615 := by
  unfold distU qAbsInt32 int32wrap toUInt64Int
  split <;> omega

/-- When the 32-bit subtraction cannot overflow, the distance computed by
nearestSampleRate is the true absolute distance. -/
lemma distU_eq_abs (rate s : Int)
    (h1 : -2147483647 ≤ s - rate) (h2 : s - rate < 2147483648) :
    distU rate s = |s - rate| := by
  rcases le_or_lt 0 (s - rate) with h | h
  · rw [abs_of_nonneg h]
    unfold distU qAbsInt32 int32wrap toUInt64Int
    split <;> omega
  · rw [abs_of_neg h]
    unfold distU qAbsInt32 int32wrap toUInt64Int
    split <;> omega

/-- Behaviour of the nearestSampleRate scan loop: either no list entry beats
the incoming distance bound and the seed candidate survives, or the result
is the first list entry realizing the strict running minimum. -/
lemma nearestLoop_spec (rate : Int) (l : List Int) :
    ∀ n q : Int,
      (nearestLoop rate l n q = n ∧ ∀ s ∈ l, q ≤ distU rate s)
      ∨ (∃ i, i < l.length
          ∧ nearestLoop rate l n q = l.getD i 0
          ∧ distU rate (l.getD i 0) < q
          ∧ (∀ s ∈ l, distU rate (l.getD i 0) ≤ distU rate s)
          ∧ (∀ j, j < i → distU rate (l.getD i 0) < distU rate (l.getD j 0))) := by
  induction l with
  | nil =>
    intro n q
    left
    exact ⟨rfl, by simp⟩
  | cons s rest ih =>
    intro n q
    by_cases hk : distU rate s < q
    · have hl : nearestLoop rate (s :: rest) n q
          = nearestLoop rate rest s (distU rate s) := by
        simp [nearestLoop, hk]
      rcases ih s (distU rate s) with ⟨heq, hall⟩ | ⟨i, hi, heq, hlt, hmin, hbef⟩
      · right
        refine ⟨0, by simp, ?_, ?_, ?_, ?_⟩
        · rw [hl, heq, List.getD_cons_zero]
        · rw [List.getD_cons_zero]; exact hk
        · intro t ht
          rw [List.getD_cons_zero]
          rcases List.mem_cons.mp ht with h | h
          · subst h; exact le_refl _
          · exact hall t h
        · intro j hj; omega
      · right
        refine ⟨i + 1, by simp only [List.length_cons]; omega, ?_, ?_, ?_, ?_⟩
        · rw [hl, heq, List.getD_cons_succ]
        · rw [List.getD_cons_succ]; exact lt_trans hlt hk
        · intro t ht
          rw [List.getD_cons_succ]
          rcases List.mem_cons.mp ht with h | h
          · subst h; exact le_of_lt hlt
          · exact hmin t h
        · intro j hj
          rw [List.getD_cons_succ]
          cases j with
          | zero => rw [List.getD_cons_zero]; exact hlt
          | succ j2 => rw [List.getD_cons_succ]; exact hbef j2 (by omega)
    · have hq := not_lt.mp hk
      have hl : nearestLoop rate (s :: rest) n q
          = nearestLoop rate rest n q := by
        simp [nearestLoop, hk]
      rcases ih n q with ⟨heq, hall⟩ | ⟨i, hi, heq, hlt, hmin, hbef⟩
      · left
        refine ⟨hl ▸ heq, ?_⟩
        intro t ht
        rcases List.mem_cons.mp ht with h | h
        · subst h; exact hq
        · exact hall t h
      · right
        refine ⟨i + 1, by simp only [List.length_cons]; omega, ?_, ?_, ?_, ?_⟩
        · rw [hl, heq, List.getD_cons_succ]
        · rw [List.getD_cons_succ]; exact hlt
        · intro t ht
          rw [List.getD_cons_succ]
          rcases List.mem_cons.mp ht with h | h
          · subst h; exact le_of_lt (lt_of_lt_of_le hlt hq)
          · exact hmin t h
        · intro j hj
          rw [List.getD_cons_succ]
          cases j with
          | zero => rw [List.getD_cons_zero]; exact lt_of_lt_of_le hlt hq
          | succ j2 => rw [List.getD_cons_succ]; exact hbef j2 (by omega)

/-- Entries of the supported-rate table lie between 8000 and 96000. -/
lemma supported_rate_bounds :
    ∀ s ∈ faacEncSupportedSampleRates, 8000 ≤ s ∧ s ≤ 96000 := by
  decide

/-- getD at an index below the length is a list member. -/
lemma getD_mem_of_lt {l : List Int} {i : Nat} (hi : i < l.length) :
    l.getD i 0 ∈ l := by
  rw [List.getD_eq_getElem l 0 hi]
  exact List.getElem_mem hi

/-- nearestSampleRate always lands in the supported-rate table, whatever
the input: the seed distance is the quint64 maximum and every computed
distance is strictly below it, so some table entry always replaces the
seed. -/
lemma nearestSampleRate_mem (rate : Int) :
    nearestSampleRate rate ∈ faacEncSupportedSampleRates := by
  rcases nearestLoop_spec rate faacEncSupportedSampleRates rate 18446744073709551615
    with ⟨heq, hall⟩ | ⟨i, hi, heq, _, _, _⟩
  · exfalso
    have h8 : (8000 : Int) ∈ faacEncSupportedSampleRates := by decide
    have h1 := hall 8000 h8
    have h2 := distU_lt_qmax rate 8000
    omega
  · have heq2 : nearestSampleRate rate = faacEncSupportedSampleRates.getD i 0 := heq
    rw [heq2]
    exact getD_mem_of_lt hi


end Faac

open Faac

/-- C2: for output caps rate=44100 and channels=2, the header blob built by
updateHeaders decodes MSB-first to object type 2 (LOW) in its first 5 bits,
sample-rate index 4 (the position of 44100 in the standard table) in the
next 4 bits, and channel count 2 in the following 4 bits. -/
theorem faac_header_bits_44100_stereo :
    bitsToNat ((blobBits (updateHeadersBlob 44100 2)).take 5) = 2
    ∧ bitsToNat (((blobBits (updateHeadersBlob 44100 2)).drop 5).take 4) = 4
    ∧ bitsToNat (((blobBits (updateHeadersBlob 44100 2)).drop 9).take 4) = 2
    ∧ sampleRateIndex 44100 = 4
    ∧ (updateHeadersBlob 44100 2).length = 32 := by
  decide

/-- C3 counterexample: at the int value -2^31 the 32-bit subtraction inside
nearestSampleRate wraps, so the function returns 96000 although 8000 (a
table member) is strictly closer in true absolute distance. -/
theorem faac_nearestSampleRate_overflow_cex :
    nearestSampleRate (-2147483648) = 96000
    ∧ (8000 : Int) ∈ faacEncSupportedSampleRates
    ∧ |(8000 : Int) - (-2147483648)| < |(96000 : Int) - (-2147483648)| := by
  refine ⟨by decide, by decide, by decide⟩

/-- C3 (amended): for every input rate such that no 32-bit overflow occurs
in the distance computation (all rates from 96000 - 2^31 + 1 up to INT_MAX),
nearestSampleRate returns a table entry of minimal absolute distance to the
input, and every earlier table entry is strictly farther, so ties resolve to
the first entry in table order. -/
theorem faac_nearestSampleRate_nearest (rate : Int)
    (hlo : -2147387647 ≤ rate) (hhi : rate ≤ 2147483647) :
    ∃ i, i < faacEncSupportedSampleRates.length
      ∧ nearestSampleRate rate = faacEncSupportedSampleRates.getD i 0
      ∧ (∀ s ∈ faacEncSupportedSampleRates,
          |nearestSampleRate rate - rate| ≤ |s - rate|)
      ∧ (∀ j, j < i →
          |nearestSampleRate rate - rate|
            < |faacEncSupportedSampleRates.getD j 0 - rate|) := by
  have habs : ∀ s ∈ faacEncSupportedSampleRates, distU rate s = |s - rate| := by
    intro s hs
    have hb := supported_rate_bounds s hs
    exact distU_eq_abs rate s (by omega) (by omega)
  rcases nearestLoop_spec rate faacEncSupportedSampleRates rate 18446744073709551615
    with ⟨heq, hall⟩ | ⟨i, hi, heq, hlt, hmin, hbef⟩
  · exfalso
    have h8 : (8000 : Int) ∈ faacEncSupportedSampleRates := by decide
    have h1 := hall 8000 h8
    have h2 := distU_lt_qmax rate 8000
    omega
  · have hmem := getD_mem_of_lt hi
    have heq2 : nearestSampleRate rate = faacEncSupportedSampleRates.getD i 0 := heq
    refine ⟨i, hi, heq2, ?_, ?_⟩
    · intro s hs
      have h1 := hmin s hs
      rw [habs _ hmem, habs s hs] at h1
      rw [heq2]
      exact h1
    · intro j hj
      have hjlt : j < faacEncSupportedSampleRates.length := by omega
      have h1 := hbef j hj
      rw [habs _ hmem, habs _ (getD_mem_of_lt hjlt)] at h1
      rw [heq2]
      exact h1

/-- C3 witness: instantiating the amended nearest-rate theorem at 44100. -/
theorem faac_nearestSampleRate_nearest_witness :
    (-2147387647 ≤ (44100 : Int)) ∧ ((44100 : Int) ≤ 2147483647)
    ∧ (∃ i, i < faacEncSupportedSampleRates.length
      ∧ nearestSampleRate 44100 = faacEncSupportedSampleRates.getD i 0
      ∧ (∀ s ∈ faacEncSupportedSampleRates,
          |nearestSampleRate 44100 - 44100| ≤ |s - 44100|)
      ∧ (∀ j, j < i →
          |nearestSampleRate 44100 - 44100|
            < |faacEncSupportedSampleRates.getD j 0 - 44100|)) :=
  ⟨by decide, by decide,
   faac_nearestSampleRate_nearest 44100 (by decide) (by decide)⟩


/-- C1 counterexample: a same-state transition (Null → Null) on a freshly
constructed element leaves the element untouched but returns false, not the
success the claim asserts; the WebM muxer behaves identically. -/
theorem setState_same_state_returns_false_cex :
    Faac.setState faacEnvDemo faacElemNull ElementState.null = (false, faacElemNull)
    ∧ Webm.setState webmEnvDemo webmElemNull ElementState.null
        = (false, webmElemNull, []) := by
  exact ⟨rfl, rfl⟩

/-- C1 (amended): for every element state and environment, a setState call
whose target equals the current state leaves the element (state and all
modelled resources) unchanged and returns false, for both the faac encoder
and the WebM muxer. -/
theorem setState_same_state_noop (env : Faac.Env) (e : Faac.Elem)
    (wenv : Webm.Env) (we : Webm.Elem) :
    Faac.setState env e e.st = (false, e)
    ∧ Webm.setState wenv we we.st = (false, we, []) := by
  constructor
  · rcases e with ⟨st, p⟩
    cases st <;> rfl
  · rcases we with ⟨st, p⟩
    cases st <;> rfl


/-- The faac teardown is a strict no-op on a never-initialized element. -/
lemma faac_uninit_noop (p : Faac.Priv) (h : p.inited = false) :
    Faac.uninit p = p := by
  simp [Faac.uninit, h]

/-- After any faac teardown the element is no longer initialized. -/
lemma faac_uninit_not_inited (p : Faac.Priv) : (Faac.uninit p).inited = false := by
  unfold Faac.uninit
  by_cases h : p.inited
  · simp only [h, Bool.not_true, Bool.false_eq_true, if_false]
    split_ifs <;> rfl
  · simp only [Bool.not_eq_true] at h
    simp [h]

/-- The WebM teardown is a strict no-op on a never-initialized muxer. -/
lemma webm_uninit_noop (env : Webm.Env) (p : Webm.Priv) (h : p.inited = false) :
    Webm.uninit env p = (p, []) := by
  simp [Webm.uninit, h]

/-- After any WebM teardown the muxer is no longer initialized. -/
lemma webm_uninit_not_inited (env : Webm.Env) (p : Webm.Priv) :
    (Webm.uninit env p).fst.inited = false := by
  unfold Webm.uninit
  by_cases h : p.inited
  · simp only [h, Bool.not_true, Bool.false_eq_true, if_false]
    split_ifs <;> rfl
  · simp only [Bool.not_eq_true] at h
    simp [h]

/-- The PipeWire teardown always leaves the fully released device state. -/
lemma pw_uninit_result (s : Pw.DevState) : (Pw.uninit s).snd.fst = Pw.freshDev := by
  rcases s with ⟨l, st, c, b⟩
  cases l <;> cases st <;> cases c <;> rfl

/-- C9: uninit on a never-initialized element changes nothing for the faac
encoder, the WebM muxer and the PipeWire device (which also releases no
native handle and returns true), and a second consecutive uninit after any
uninit is again a no-op that performs no native release. -/
theorem uninit_never_inited_noop (p : Faac.Priv) (hp : p.inited = false)
    (wenv : Webm.Env) (wp : Webm.Priv) (hwp : wp.inited = false)
    (s : Pw.DevState) :
    Faac.uninit p = p
    ∧ Webm.uninit wenv wp = (wp, [])
    ∧ Pw.uninit Pw.freshDev = (true, Pw.freshDev, [])
    ∧ (∀ p2 : Faac.Priv, Faac.uninit (Faac.uninit p2) = Faac.uninit p2)
    ∧ (∀ wp2 : Webm.Priv,
        Webm.uninit wenv (Webm.uninit wenv wp2).fst
          = ((Webm.uninit wenv wp2).fst, []))
    ∧ Pw.uninit (Pw.uninit s).snd.fst = (true, (Pw.uninit s).snd.fst, []) := by
  refine ⟨faac_uninit_noop p hp, webm_uninit_noop wenv wp hwp, rfl, ?_, ?_, ?_⟩
  · intro p2
    exact faac_uninit_noop _ (faac_uninit_not_inited p2)
  · intro wp2
    exact webm_uninit_noop wenv _ (webm_uninit_not_inited wenv wp2)
  · rw [pw_uninit_result s]
    rfl

/-- C9 witness: the idempotence theorem applied to the fresh faac private
state, the fresh muxer state and a fully initialized PipeWire device. -/
theorem uninit_never_inited_noop_witness :
    faacElemNull.priv.inited = false
    ∧ Webm.freshPriv.inited = false
    ∧ (Faac.uninit faacElemNull.priv = faacElemNull.priv
       ∧ Webm.uninit webmEnvDemo Webm.freshPriv = (Webm.freshPriv, [])
       ∧ Pw.uninit Pw.freshDev = (true, Pw.freshDev, [])
       ∧ (∀ p2 : Faac.Priv, Faac.uninit (Faac.uninit p2) = Faac.uninit p2)
       ∧ (∀ wp2 : Webm.Priv,
           Webm.uninit webmEnvDemo (Webm.uninit webmEnvDemo wp2).fst
             = ((Webm.uninit webmEnvDemo wp2).fst, []))
       ∧ Pw.uninit (Pw.uninit pwDevDemo).snd.fst
           = (true, (Pw.uninit pwDevDemo).snd.fst, [])) :=
  ⟨rfl, rfl,
   uninit_never_inited_noop faacElemNull.priv rfl webmEnvDemo Webm.freshPriv rfl
     pwDevDemo⟩

/-- C10: when no default source (resp. sink) is set, defaultInput (resp.
defaultOutput) returns the first enumerated device of that kind in map
order, not the empty string, and returns the empty string exactly when no
device of that kind is known (device names being nonempty). -/
theorem pw_default_device_fallback (r : Pw.Registry)
    (hsrc : ∀ kv ∈ r.sources, kv.snd ≠ "")
    (hsnk : ∀ kv ∈ r.sinks, kv.snd ≠ "") :
    (r.defaultSource = "" → r.sources ≠ [] →
        Pw.defaultInput r = (r.sources.map Prod.snd).getD 0 ""
        ∧ Pw.defaultInput r ≠ "")
    ∧ (Pw.defaultInput r = "" ↔ r.defaultSource = "" ∧ r.sources = [])
    ∧ (r.defaultSink = "" → r.sinks ≠ [] →
        Pw.defaultOutput r = (r.sinks.map Prod.snd).getD 0 ""
        ∧ Pw.defaultOutput r ≠ "")
    ∧ (Pw.defaultOutput r = "" ↔ r.defaultSink = "" ∧ r.sinks = []) := by
  refine ⟨?_, ?_, ?_, ?_⟩
  · intro hd hne
    refine ⟨by simp [Pw.defaultInput, hd], ?_⟩
    rcases hs : r.sources with _ | ⟨kv, rest⟩
    · exact absurd hs hne
    · simp [Pw.defaultInput, hd, hs]
      exact hsrc kv (by rw [hs]; exact List.mem_cons_self kv rest)
  · constructor
    · intro h
      by_cases hd : r.defaultSource = ""
      · refine ⟨hd, ?_⟩
        rcases hs : r.sources with _ | ⟨kv, rest⟩
        · rfl
        · exfalso
          apply hsrc kv (by rw [hs]; exact List.mem_cons_self kv rest)
          simpa [Pw.defaultInput, hd, hs] using h
      · exact absurd (by simpa [Pw.defaultInput, hd] using h) hd
    · rintro ⟨hd, hs⟩
      simp [Pw.defaultInput, hd, hs]
  · intro hd hne
    refine ⟨by simp [Pw.defaultOutput, hd], ?_⟩
    rcases hs : r.sinks with _ | ⟨kv, rest⟩
    · exact absurd hs hne
    · simp [Pw.defaultOutput, hd, hs]
      exact hsnk kv (by rw [hs]; exact List.mem_cons_self kv rest)
  · constructor
    · intro h
      by_cases hd : r.defaultSink = ""
      · refine ⟨hd, ?_⟩
        rcases hs : r.sinks with _ | ⟨kv, rest⟩
        · rfl
        · exfalso
          apply hsnk kv (by rw [hs]; exact List.mem_cons_self kv rest)
          simpa [Pw.defaultOutput, hd, hs] using h
      · exact absurd (by simpa [Pw.defaultOutput, hd] using h) hd
    · rintro ⟨hd, hs⟩
      simp [Pw.defaultOutput, hd, hs]


/-- C10 witness: the fallback theorem applied to a registry whose default
source is unset; the first enumerated source ("mic") is returned. -/
theorem pw_default_device_fallback_witness :
    (∀ kv ∈ pwRegistryDemo.sources, kv.snd ≠ "")
    ∧ (∀ kv ∈ pwRegistryDemo.sinks, kv.snd ≠ "")
    ∧ ((pwRegistryDemo.defaultSource = "" → pwRegistryDemo.sources ≠ [] →
        Pw.defaultInput pwRegistryDemo
            = (pwRegistryDemo.sources.map Prod.snd).getD 0 ""
        ∧ Pw.defaultInput pwRegistryDemo ≠ "")
      ∧ (Pw.defaultInput pwRegistryDemo = ""
          ↔ pwRegistryDemo.defaultSource = "" ∧ pwRegistryDemo.sources = [])
      ∧ (pwRegistryDemo.defaultSink = "" → pwRegistryDemo.sinks ≠ [] →
          Pw.defaultOutput pwRegistryDemo
              = (pwRegistryDemo.sinks.map Prod.snd).getD 0 ""
          ∧ Pw.defaultOutput pwRegistryDemo ≠ "")
      ∧ (Pw.defaultOutput pwRegistryDemo = ""
          ↔ pwRegistryDemo.defaultSink = "" ∧ pwRegistryDemo.sinks = [])) :=
  ⟨by decide, by decide,
   pw_default_device_fallback pwRegistryDemo (by decide) (by decide)⟩

/-- C4: on a muxer that is not currently initialized, init rejects every
configuration error — absent video caps, an unsupported video codec, or an
unsupported audio codec — returning false with an empty native-action
trace: the writer is never opened (so no file is created or left on disk)
and no segment or track is touched. -/
theorem webm_init_rejects_config_errors (env : Webm.Env) (p : Webm.Priv)
    (hp : p.inited = false) :
    (env.videoCaps = none →
        (Webm.init env p).fst = false ∧ (Webm.init env p).snd.snd = [])
    ∧ (∀ vc, env.videoCaps = some vc → Webm.videoCodecEntry vc.codec = none →
        (Webm.init env p).fst = false ∧ (Webm.init env p).snd.snd = [])
    ∧ (∀ vc ac, env.videoCaps = some vc → env.audioCaps = some ac →
        Webm.audioCodecEntry ac.codec = none →
        (Webm.init env p).fst = false ∧ (Webm.init env p).snd.snd = []) := by
  have hu := webm_uninit_noop env p hp
  refine ⟨?_, ?_, ?_⟩
  · intro h
    simp only [Webm.init, hu, h]
    cases env.hasPacketSync <;> simp
  · intro vc hvc hcodec
    simp only [Webm.init, hu, hvc, hcodec]
    cases env.hasPacketSync <;> simp
  · intro vc ac hvc hac hcodec
    simp only [Webm.init, hu, hvc, hac, hcodec]
    cases env.hasPacketSync <;>
      rcases hv : Webm.videoCodecEntry vc.codec with _ | s <;> simp [hv]

/-- C4 witness: initializing a fresh muxer with h264 video caps fails with
an empty resource trace. -/
theorem webm_init_rejects_config_errors_witness :
    Webm.freshPriv.inited = false
    ∧ ((webmEnvBadCodec.videoCaps = none →
        (Webm.init webmEnvBadCodec Webm.freshPriv).fst = false
        ∧ (Webm.init webmEnvBadCodec Webm.freshPriv).snd.snd = [])
      ∧ (∀ vc, webmEnvBadCodec.videoCaps = some vc →
          Webm.videoCodecEntry vc.codec = none →
          (Webm.init webmEnvBadCodec Webm.freshPriv).fst = false
          ∧ (Webm.init webmEnvBadCodec Webm.freshPriv).snd.snd = [])
      ∧ (∀ vc ac, webmEnvBadCodec.videoCaps = some vc →
          webmEnvBadCodec.audioCaps = some ac →
          Webm.audioCodecEntry ac.codec = none →
          (Webm.init webmEnvBadCodec Webm.freshPriv).fst = false
          ∧ (Webm.init webmEnvBadCodec Webm.freshPriv).snd.snd = [])) :=
  ⟨rfl, webm_init_rejects_config_errors webmEnvBadCodec Webm.freshPriv rfl⟩

/-- C5: every AddFrame the muxer performs carries the timestamp
uint64_t(pts * timeBase * 1e9) — exactly pts·timeBase·1e9 nanoseconds
whenever that value is a whole number of nanoseconds; packetReady updates
the per-stream running duration to (pts + duration)·timeBase; and the
duration finalized into the segment is the maximum of the audio and video
stream durations when an audio track is present (index ≥ 1) and the video
duration alone otherwise. -/
theorem webm_packet_timing (p : Webm.Priv) (pkt : Webm.MPacket) (env : Webm.Env) :
    (∀ sz tr ts k, Webm.WAction.addFrame sz tr ts k ∈ (Webm.packetReady p pkt).snd →
        ts = Webm.ratToUInt64 ((pkt.pts : ℚ) * pkt.timeBase * 1000000000)
        ∧ (∀ n : ℕ, ((pkt.pts : ℚ) * pkt.timeBase * 1000000000) = (n : ℚ) → ts = n))
    ∧ ((pkt.ptype = Webm.PacketType.audio ∨ pkt.ptype = Webm.PacketType.audioCompressed) →
        (Webm.packetReady p pkt).fst.audioDuration
          = ((pkt.pts + pkt.durationTicks : Int) : ℚ) * pkt.timeBase
        ∧ (Webm.packetReady p pkt).fst.videoDuration = p.videoDuration)
    ∧ ((pkt.ptype = Webm.PacketType.video ∨ pkt.ptype = Webm.PacketType.videoCompressed) →
        (Webm.packetReady p pkt).fst.videoDuration
          = ((pkt.pts + pkt.durationTicks : Int) : ℚ) * pkt.timeBase
        ∧ (Webm.packetReady p pkt).fst.audioDuration = p.audioDuration)
    ∧ (p.inited = true →
        (Webm.uninit env p).snd.head?
          = some (Webm.WAction.setDuration
              (Webm.qRound64 (Webm.finalDuration env p * 1000000000
                / (p.timeCodeScale : ℚ)))))
    ∧ (1 ≤ p.audioTrackIndex →
        Webm.finalDuration env p
          = max (Webm.audioDurationFinal env p) (Webm.videoDurationFinal env p))
    ∧ (p.audioTrackIndex < 1 →
        Webm.finalDuration env p = Webm.videoDurationFinal env p) := by
  refine ⟨?_, ?_, ?_, ?_, ?_, ?_⟩
  · intro sz tr ts k hmem
    have hts : ts = Webm.frameTimestampNanos pkt := by
      simp only [Webm.packetReady] at hmem
      split at hmem <;> simp_all
    refine ⟨hts, ?_⟩
    intro n hn
    rw [hts]
    simp [Webm.frameTimestampNanos, Webm.ratToUInt64, hn]
  · intro h
    rcases h with h | h <;> simp [Webm.packetReady, h]
  · intro h
    rcases h with h | h <;> simp [Webm.packetReady, h]
  · intro h
    simp only [Webm.uninit, h, Bool.not_true, Bool.false_eq_true, if_false]
    split_ifs <;> rfl
  · intro h
    simp only [Webm.finalDuration]
    rw [if_neg (by omega)]
  · intro h
    simp only [Webm.finalDuration]
    rw [if_pos h]


/-- C5 witness: the timing theorem applied to a concrete audio packet and
an initialized muxer state. -/
theorem webm_packet_timing_witness :
    (pktDemo.ptype = Webm.PacketType.audio
      ∨ pktDemo.ptype = Webm.PacketType.audioCompressed)
    ∧ ((Webm.packetReady webmPrivDemo pktDemo).fst.audioDuration
        = ((pktDemo.pts + pktDemo.durationTicks : Int) : ℚ) * pktDemo.timeBase
       ∧ (Webm.packetReady webmPrivDemo pktDemo).fst.videoDuration
        = webmPrivDemo.videoDuration)
    ∧ webmPrivDemo.inited = true
    ∧ (Webm.uninit webmEnvDemo webmPrivDemo).snd.head?
        = some (Webm.WAction.setDuration
            (Webm.qRound64 (Webm.finalDuration webmEnvDemo webmPrivDemo * 1000000000
              / (webmPrivDemo.timeCodeScale : ℚ))))
    ∧ (1 ≤ webmPrivDemo.audioTrackIndex)
    ∧ Webm.finalDuration webmEnvDemo webmPrivDemo
        = max (Webm.audioDurationFinal webmEnvDemo webmPrivDemo)
              (Webm.videoDurationFinal webmEnvDemo webmPrivDemo) :=
  ⟨Or.inr rfl,
   (webm_packet_timing webmPrivDemo pktDemo webmEnvDemo).2.1 (Or.inr rfl),
   rfl,
   (webm_packet_timing webmPrivDemo pktDemo webmEnvDemo).2.2.2.1 rfl,
   by decide,
   (webm_packet_timing webmPrivDemo pktDemo webmEnvDemo).2.2.2.2.1 (by decide)⟩


/-- The AddAudioTrack scanner distributes over trace concatenation. -/
lemma hasAddAudio_append (a b : List Webm.WAction) :
    hasAddAudio (a ++ b) = (hasAddAudio a || hasAddAudio b) := by
  simp [hasAddAudio]

/-- packetReady only ever performs an AddFrame call. -/
lemma packetReady_no_addAudio (p : Webm.Priv) (pkt : Webm.MPacket) :
    hasAddAudio (Webm.packetReady p pkt).snd = false := by
  simp only [Webm.packetReady]
  split <;> rfl

/-- packetReady never modifies the audio track index. -/
lemma packetReady_fold_audioIdx (pkts : List Webm.MPacket) :
    ∀ p : Webm.Priv,
      (pkts.foldl (fun pr pkt => (Webm.packetReady pr pkt).fst) p).audioTrackIndex
        = p.audioTrackIndex := by
  induction pkts with
  | nil => intro p; rfl
  | cons pkt rest ih =>
    intro p
    rw [List.foldl_cons, ih]
    simp only [Webm.packetReady]
    split <;> rfl

/-- The muxer teardown performs no AddAudioTrack call. -/
lemma webm_uninit_no_addAudio (env : Webm.Env) (p : Webm.Priv) :
    hasAddAudio (Webm.uninit env p).snd = false := by
  unfold Webm.uninit
  rcases hi : p.inited
  · simp [hi, hasAddAudio]
  · simp only [hi, Bool.not_true, Bool.false_eq_true, if_false]
    repeat' split
    all_goals simp [hasAddAudio]

/-- When the host set no audio caps, initialization performs no
AddAudioTrack call and leaves the audio track index at 0. -/
lemma webm_init_noaudio (env : Webm.Env) (h : env.audioCaps = none) :
    hasAddAudio (Webm.init env Webm.freshPriv).snd.snd = false
    ∧ (Webm.init env Webm.freshPriv).snd.fst.audioTrackIndex = 0 := by
  have hu : Webm.uninit env Webm.freshPriv = (Webm.freshPriv, []) :=
    webm_uninit_noop env Webm.freshPriv rfl
  refine ⟨?_, ?_⟩ <;>
    · simp only [Webm.init, hu, h]
      repeat' split
      all_goals simp_all [hasAddAudio, Webm.freshPriv]

/-- The packet fold of a session: the private state matches the plain
packetReady fold, and it contributes no AddAudioTrack to the trace. -/
lemma session_pairFold (pkts : List Webm.MPacket) :
    ∀ (p : Webm.Priv) (acc : List Webm.WAction),
      (pkts.foldl (fun (st : Webm.Priv × List Webm.WAction) pkt =>
          let r2 := Webm.packetReady st.fst pkt
          (r2.fst, st.snd ++ r2.snd)) (p, acc)).fst
        = pkts.foldl (fun pr pkt => (Webm.packetReady pr pkt).fst) p
      ∧ (hasAddAudio acc = false →
          hasAddAudio ((pkts.foldl (fun (st : Webm.Priv × List Webm.WAction) pkt =>
            let r2 := Webm.packetReady st.fst pkt
            (r2.fst, st.snd ++ r2.snd)) (p, acc)).snd) = false) := by
  induction pkts with
  | nil => intro p acc; exact ⟨rfl, fun h => h⟩
  | cons pkt rest ih =>
    intro p acc
    rw [List.foldl_cons, List.foldl_cons]
    refine ⟨(ih _ _).1, ?_⟩
    intro hacc
    refine (ih _ _).2 ?_
    rw [hasAddAudio_append, Bool.or_eq_false_iff]
    exact ⟨hacc, packetReady_no_addAudio p pkt⟩

/-- C6: a whole muxer session (init through finalize) started with empty
audio caps never performs an AddAudioTrack call, keeps the audio track
index at 0, and finalizes with the video-only duration. -/
theorem webm_video_only_session (env : Webm.Env) (pkts : List Webm.MPacket)
    (h : env.audioCaps = none) :
    hasAddAudio (Webm.sessionActions env pkts) = false
    ∧ (Webm.sessionPriv env pkts).audioTrackIndex = 0
    ∧ Webm.finalDuration env (Webm.sessionPriv env pkts)
        = Webm.videoDurationFinal env (Webm.sessionPriv env pkts) := by
  have hi := webm_init_noaudio env h
  have hidx : (Webm.sessionPriv env pkts).audioTrackIndex = 0 := by
    unfold Webm.sessionPriv
    by_cases hf : (Webm.init env Webm.freshPriv).fst
    · simp only [hf, if_true]
      rw [packetReady_fold_audioIdx]
      exact hi.2
    · simp only [Bool.not_eq_true] at hf
      simp only [hf, Bool.false_eq_true, if_false]
      exact hi.2
  refine ⟨?_, hidx, ?_⟩
  · unfold Webm.sessionActions
    by_cases hf : (Webm.init env Webm.freshPriv).fst
    · simp only [hf, if_true]
      rw [hasAddAudio_append, Bool.or_eq_false_iff]
      exact ⟨(session_pairFold pkts _ _).2 hi.1, webm_uninit_no_addAudio env _⟩
    · simp only [Bool.not_eq_true] at hf
      simp only [hf, Bool.false_eq_true, if_false]
      exact hi.1
  · unfold Webm.finalDuration
    rw [if_pos (by rw [hidx]; decide)]


/-- C6 witness: the video-only session theorem applied to the demo
environment (which sets no audio caps) and one video packet. -/
theorem webm_video_only_session_witness :
    webmEnvDemo.audioCaps = none
    ∧ (hasAddAudio (Webm.sessionActions webmEnvDemo [pktVideoDemo]) = false
       ∧ (Webm.sessionPriv webmEnvDemo [pktVideoDemo]).audioTrackIndex = 0
       ∧ Webm.finalDuration webmEnvDemo (Webm.sessionPriv webmEnvDemo [pktVideoDemo])
           = Webm.videoDurationFinal webmEnvDemo
               (Webm.sessionPriv webmEnvDemo [pktVideoDemo])) :=
  ⟨rfl, webm_video_only_session webmEnvDemo [pktVideoDemo] rfl⟩

/-- C7: output-caps derivation is total on non-empty input caps with a
known codec: the faac element yields empty output caps exactly when the
input caps are empty or the codec is unknown, and otherwise substitutes s16
for unsupported sample formats (keeping supported ones), clamps channels to
[1,2] and maps the rate into the supported table; the rav1e element behaves
the same with yuv420p as the pixel-format fallback. -/
theorem encoder_output_caps_total (k : Bool) (ic : Option Faac.RawCaps)
    (kv : Bool) (br : Int) (icv : Option Rav1e.RawCaps) :
    (Faac.updateOutputCaps k ic = none ↔ (ic = none ∨ k = false))
    ∧ (∀ c, ic = some c → k = true →
        ∃ oc, Faac.updateOutputCaps k ic = some oc
          ∧ ((Faac.byFormat c.format).fst = Faac.SampleFormat.fmtNone →
              oc.format = Faac.SampleFormat.s16)
          ∧ ((Faac.byFormat c.format).fst ≠ Faac.SampleFormat.fmtNone →
              oc.format = (Faac.byFormat c.format).fst)
          ∧ 1 ≤ oc.channels ∧ oc.channels ≤ 2
          ∧ oc.rate ∈ Faac.faacEncSupportedSampleRates)
    ∧ (Rav1e.updateOutputCaps kv br icv = none ↔ (icv = none ∨ kv = false))
    ∧ (∀ c, icv = some c → kv = true →
        ∃ oc, Rav1e.updateOutputCaps kv br icv = some oc
          ∧ ((Rav1e.byPixFormat c.format).fst = Rav1e.PixelFormat.pfNone →
              oc.format = Rav1e.PixelFormat.yuv420p)
          ∧ ((Rav1e.byPixFormat c.format).fst ≠ Rav1e.PixelFormat.pfNone →
              oc.format = (Rav1e.byPixFormat c.format).fst)) := by
  refine ⟨?_, ?_, ?_, ?_⟩
  · rcases ic with _ | c
    · simp [Faac.updateOutputCaps]
    · cases k <;> simp [Faac.updateOutputCaps]
  · intro c hc hk
    subst hc
    subst hk
    refine ⟨_, rfl, ?_, ?_, ?_, ?_, ?_⟩
    · intro h
      simp only [Faac.updateOutputCaps, h, if_true, if_pos]
      decide
    · intro h
      simp [Faac.updateOutputCaps, h]
    · exact le_max_left 1 _
    · exact max_le (by norm_num) (min_le_left 2 c.channels)
    · exact Faac.nearestSampleRate_mem c.rate
  · rcases icv with _ | c
    · simp [Rav1e.updateOutputCaps]
    · cases kv <;> simp [Rav1e.updateOutputCaps]
  · intro c hc hk
    subst hc
    subst hk
    refine ⟨_, rfl, ?_, ?_⟩
    · intro h
      simp only [Rav1e.updateOutputCaps, h, if_true, if_pos]
      decide
    · intro h
      simp [Rav1e.updateOutputCaps, h]


/-- C7 witness: the totality theorem applied to a float/5-channel/50 kHz
audio input and an rgb24 video input, with known codecs. -/
theorem encoder_output_caps_total_witness :
    (Faac.updateOutputCaps true (some faacRawCapsDemo) = none
      ↔ (some faacRawCapsDemo = none ∨ true = false))
    ∧ (∀ c, some faacRawCapsDemo = some c → true = true →
        ∃ oc, Faac.updateOutputCaps true (some faacRawCapsDemo) = some oc
          ∧ ((Faac.byFormat c.format).fst = Faac.SampleFormat.fmtNone →
              oc.format = Faac.SampleFormat.s16)
          ∧ ((Faac.byFormat c.format).fst ≠ Faac.SampleFormat.fmtNone →
              oc.format = (Faac.byFormat c.format).fst)
          ∧ 1 ≤ oc.channels ∧ oc.channels ≤ 2
          ∧ oc.rate ∈ Faac.faacEncSupportedSampleRates)
    ∧ (Rav1e.updateOutputCaps true 1000 (some rav1eRawCapsDemo) = none
      ↔ (some rav1eRawCapsDemo = none ∨ true = false))
    ∧ (∀ c, some rav1eRawCapsDemo = some c → true = true →
        ∃ oc, Rav1e.updateOutputCaps true 1000 (some rav1eRawCapsDemo) = some oc
          ∧ ((Rav1e.byPixFormat c.format).fst = Rav1e.PixelFormat.pfNone →
              oc.format = Rav1e.PixelFormat.yuv420p)
          ∧ ((Rav1e.byPixFormat c.format).fst ≠ Rav1e.PixelFormat.pfNone →
              oc.format = (Rav1e.byPixFormat c.format).fst)) :=
  encoder_output_caps_total true (some faacRawCapsDemo) true 1000
    (some rav1eRawCapsDemo)

/-- Each emitted packet's pts is the starting pts plus the durations of the
packets emitted before it. -/
lemma emitLoop_pts (fs : List Faac.EncFrame) :
    ∀ (p0 : Int) (i : Nat), i < (Faac.emitLoop fs p0).length →
      ((Faac.emitLoop fs p0).getD i (0, 0)).fst
        = p0 + (((Faac.emitLoop fs p0).take i).map (fun q => (q.snd : Int))).sum := by
  induction fs with
  | nil =>
    intro p0 i h
    simp [Faac.emitLoop] at h
  | cons f rest ih =>
    intro p0 i h
    by_cases hw : 0 < f.writtenBytes
    · simp only [Faac.emitLoop, if_pos hw] at h ⊢
      cases i with
      | zero => simp
      | succ i2 =>
        simp only [List.getD_cons_succ, List.take_succ_cons, List.map_cons,
                   List.sum_cons, List.length_cons] at h ⊢
        rw [ih (p0 + (f.samples : Int)) i2 (by omega)]
        ring
    · simp only [Faac.emitLoop, if_neg hw] at h ⊢
      exact ih p0 i h

/-- Each emitted packet's pts is the previous packet's pts plus the
previous packet's duration. -/
lemma emitLoop_step (fs : List Faac.EncFrame) :
    ∀ (p0 : Int) (i : Nat), i + 1 < (Faac.emitLoop fs p0).length →
      ((Faac.emitLoop fs p0).getD (i + 1) (0, 0)).fst
        = ((Faac.emitLoop fs p0).getD i (0, 0)).fst
          + (((Faac.emitLoop fs p0).getD i (0, 0)).snd : Int) := by
  induction fs with
  | nil =>
    intro p0 i h
    simp [Faac.emitLoop] at h
  | cons f rest ih =>
    intro p0 i h
    by_cases hw : 0 < f.writtenBytes
    · simp only [Faac.emitLoop, if_pos hw] at h ⊢
      cases i with
      | zero =>
        simp only [List.getD_cons_succ, List.getD_cons_zero, List.length_cons] at h ⊢
        have h0 := emitLoop_pts rest (p0 + (f.samples : Int)) 0 (by omega)
        simpa using h0
      | succ i2 =>
        simp only [List.getD_cons_succ, List.length_cons] at h ⊢
        exact ih (p0 + (f.samples : Int)) i2 (by omega)
    · simp only [Faac.emitLoop, if_neg hw] at h ⊢
      exact ih p0 i h

/-- C8: the AAC encoder emits packets whose pts is the cumulative sample
count of all previously emitted packets, each pts advancing by the packet's
own sample count, so successive audio timestamps strictly increase for
non-empty frames; and the muxer's AddFrame timestamp map is monotone, so
per-track timestamps written to the container are non-decreasing for every
synchronized (per-track time-ordered) input sequence. -/
theorem aac_pts_cumulative_muxer_monotone
    (frames : List Faac.EncFrame) (i : Nat)
    (hi1 : i + 1 < (Faac.emittedPackets frames).length)
    (hpos : 0 < ((Faac.emittedPackets frames).getD i (0, 0)).snd)
    (p1 p2 : Webm.MPacket)
    (hord : (p1.pts : ℚ) * p1.timeBase ≤ (p2.pts : ℚ) * p2.timeBase) :
    ((Faac.emittedPackets frames).getD i (0, 0)).fst
        = (((Faac.emittedPackets frames).take i).map (fun q => (q.snd : Int))).sum
    ∧ ((Faac.emittedPackets frames).getD (i + 1) (0, 0)).fst
        = ((Faac.emittedPackets frames).getD i (0, 0)).fst
          + (((Faac.emittedPackets frames).getD i (0, 0)).snd : Int)
    ∧ ((Faac.emittedPackets frames).getD i (0, 0)).fst
        < ((Faac.emittedPackets frames).getD (i + 1) (0, 0)).fst
    ∧ Webm.frameTimestampNanos p1 ≤ Webm.frameTimestampNanos p2 := by
  simp only [Faac.emittedPackets] at hi1 hpos ⊢
  have e1 := emitLoop_pts frames 0 i (by omega)
  have e2 := emitLoop_step frames 0 i hi1
  refine ⟨by simpa using e1, e2, ?_, ?_⟩
  · rw [e2]
    omega
  · unfold Webm.frameTimestampNanos Webm.ratToUInt64
    have hmul : (p1.pts : ℚ) * p1.timeBase * 1000000000
        ≤ (p2.pts : ℚ) * p2.timeBase * 1000000000 :=
      mul_le_mul_of_nonneg_right hord (by norm_num)
    exact Int.toNat_le_toNat (Int.floor_le_floor hmul)

/-- C8 witness: the cumulative-pts theorem applied to two emitted frames of
1024 samples and two audio packets in time order. -/
theorem aac_pts_cumulative_muxer_monotone_witness :
    0 + 1 < (Faac.emittedPackets demoFrames).length
    ∧ 0 < ((Faac.emittedPackets demoFrames).getD 0 (0, 0)).snd
    ∧ (pktDemo.pts : ℚ) * pktDemo.timeBase ≤ (pktDemo2.pts : ℚ) * pktDemo2.timeBase
    ∧ (((Faac.emittedPackets demoFrames).getD 0 (0, 0)).fst
        = (((Faac.emittedPackets demoFrames).take 0).map (fun q => (q.snd : Int))).sum
      ∧ ((Faac.emittedPackets demoFrames).getD (0 + 1) (0, 0)).fst
          = ((Faac.emittedPackets demoFrames).getD 0 (0, 0)).fst
            + (((Faac.emittedPackets demoFrames).getD 0 (0, 0)).snd : Int)
      ∧ ((Faac.emittedPackets demoFrames).getD 0 (0, 0)).fst
          < ((Faac.emittedPackets demoFrames).getD (0 + 1) (0, 0)).fst
      ∧ Webm.frameTimestampNanos pktDemo ≤ Webm.frameTimestampNanos pktDemo2) :=
  ⟨by decide, by decide, by norm_num [pktDemo, pktDemo2],
   aac_pts_cumulative_muxer_monotone demoFrames 0 (by decide) (by decide)
     pktDemo pktDemo2 (by norm_num [pktDemo, pktDemo2])⟩

end Spec2Proof

